import Mathlib

/-!
Verification development for the client-side channel protocol layer
(`examples/django_demo/static/socket.js`): Backoff Timer, Push, Channel
and Connection (Socket), shallowly embedded in Lean 4.

JavaScript objects used as string-keyed maps are embedded as association
lists (`List (String × α)`); listener functions are embedded as opaque
identifiers so that registration order and the identity-based `filter`
of `off(event, fn)` are faithful.  All definitions are translated from
the source; the line numbers in the doc comments refer to `socket.js`.
-/

namespace AsgiCable

/-! ## JS object-as-map helpers

Semantics of `obj[k]` (possibly `undefined`, i.e. `none`), `obj[k] = v`,
and `delete obj[k]` for plain objects used as dictionaries. -/

abbrev JsMap (α : Type) := List (String × α)

def jsGet (tbl : JsMap α) (k : String) : Option α :=
  (tbl.find? (fun p => p.1 = k)).map (fun p => p.2)

def jsSet (tbl : JsMap α) (k : String) (v : α) : JsMap α :=
  if (tbl.find? (fun p => p.1 = k)).isSome then
    tbl.map (fun p => if p.1 = k then (k, v) else p)
  else
    tbl ++ [(k, v)]

def jsDelete (tbl : JsMap α) (k : String) : JsMap α :=
  tbl.filter (fun p => p.1 ≠ k)

/-! ## Decimal representation of refs

`makeReplyEventName(ref)` is `` `channel_reply_${ref}` `` (lines 10-12):
the fixed text followed by the decimal representation of the numeric
ref, which is core's `Nat.repr`.  The decimal value extractor
`valOfDigits` below lets us prove the scheme injective. -/

def decDigit (c : Char) : Nat := c.toNat - 48

def valOfDigits (l : List Char) : Nat :=
  l.foldl (fun a c => 10 * a + decDigit c) 0

/-- The reply-channel naming scheme: `makeReplyEventName(ref)` returns
`` `channel_reply_${ref}` `` (socket.js lines 10-12). -/
def makeReplyEventName (ref : Nat) : String :=
  "channel_reply_" ++ Nat.repr ref

/-! ## Reserved channel events (socket.js lines 4-8) -/

namespace ChannelEvents

def JOIN : String := "__join__"

def Leave : String := "__leave__"

def Reply : String := "__reply__"

end ChannelEvents

/-! ## Channel (socket.js lines 436-481)

Listener functions are opaque identifiers (`Nat`); `_subscribers` maps
an event name to the ordered list of registered listener ids.  In this
variant each listener is invoked with the single object
`{event, data, ref}` (line 472). -/

inductive JsErr
  | typeError
  deriving DecidableEq

structure ChInvocation (α : Type) where
  fid : Nat
  event : String
  data : α
  ref : Nat
  deriving DecidableEq

abbrev SubTable := JsMap (List Nat)

namespace Channel

/-- `on(event, fn)`: create the list if absent, then push `fn` (lines 455-460).
The source name `on` is a notation token here, hence the guillemets. -/
def «on» (tbl : SubTable) (event : String) (fn : Nat) : SubTable :=
  jsSet tbl event ((jsGet tbl event).getD [] ++ [fn])

/-- `off(event, fn = null)` (lines 462-468).  With a truthy `fn` the code
reads `this._subscribers[event].filter(...)`: if the event has no entry
the read yields `undefined` and the `.filter` call throws a `TypeError`.
With no `fn` it is `delete this._subscribers[event]`. -/
def off (tbl : SubTable) (event : String) (fn : Option Nat) : Except JsErr SubTable :=
  match fn with
  | some f =>
      match jsGet tbl event with
      | none => .error .typeError
      | some l => .ok (jsSet tbl event (l.filter (fun cb => cb ≠ f)))
  | none => .ok (jsDelete tbl event)

/-- `trigger(event, data, ref)` (lines 470-473): invoke each listener
registered under `event`, in order, with `{event, data, ref}`.  The
result is the invocation list. -/
def trigger (tbl : SubTable) (event : String) (data : α) (ref : Nat) :
    List (ChInvocation α) :=
  ((jsGet tbl event).getD []).map (fun fid => ⟨fid, event, data, ref⟩)

/-- `dispatch({event, data, ref})` (lines 475-480): a reserved REPLY
event is re-dispatched under the synthetic per-ref event name. -/
def dispatch (tbl : SubTable) (event : String) (data : α) (ref : Nat) :
    List (ChInvocation α) :=
  let event := if event = ChannelEvents.Reply then makeReplyEventName ref else event
  trigger tbl event data ref

end Channel

/-! ## Channel2.trigger (socket.js lines 140-143)

In this variant each listener is invoked with the two arguments
`(payload, ref)`.  The iteration is `listeners.forEach(fn => fn(payload,
ref))`: when a listener throws, the exception propagates out of
`forEach` and the remaining listeners are not visited.  A listener is a
descriptor carrying its identity and whether invoking it throws. -/

structure Listener2 where
  fid : Nat
  raises : Bool
  deriving DecidableEq

structure Call2 (α : Type) where
  fid : Nat
  payload : α
  ref : Nat
  deriving DecidableEq

inductive JsExn
  | listenerExn
  deriving DecidableEq

/-- `forEach` over the listener list: each listener is called in order
with `(payload, ref)`; a thrown exception stops the iteration and
escapes.  Returns the calls actually made and the escaped exception. -/
def forEachCalls (payload : α) (ref : Nat) :
    List Listener2 → List (Call2 α) × Option JsExn
  | [] => ([], none)
  | f :: rest =>
      if f.raises then ([⟨f.fid, payload, ref⟩], some .listenerExn)
      else
        let r := forEachCalls payload ref rest
        (⟨f.fid, payload, ref⟩ :: r.1, r.2)

namespace Channel2

/-- `trigger(event, payload, ref)` (lines 140-143):
`let listeners = this.listeners[event] || [];
listeners.forEach(fn => fn(payload, ref))`. -/
def trigger (tbl : JsMap (List Listener2)) (event : String) (payload : α) (ref : Nat) :
    List (Call2 α) × Option JsExn :=
  forEachCalls payload ref ((jsGet tbl event).getD [])

end Channel2

/-! ## Push (socket.js lines 377-433)

State machine of one Push after a successful `send()` on an open
connection.  `send()` registers the per-ref reply listener on the
channel, arms the timeout timer, registers the ok/error/timeout
subscribers, and emits the frame.  Afterwards the only relevant runtime
events are: a REPLY frame with this Push's ref being routed to the
channel, and the armed timeout firing.  The handlers (lines 391-414):
the reply listener runs `dispatch(status, data)`; the ok subscriber
runs `clearTimeout(timer); channel.off(replyEventName); resolve(data)`;
the error subscriber the same with `reject`; the timeout subscriber
runs `channel.off(replyEventName); reject(...)`.  `settles` records
every resolve/reject invocation, `listenerHits` every run of the
channel reply listener. -/

inductive ReplyStatus
  | ok
  | error
  deriving DecidableEq

inductive PushOutcome (α : Type)
  | resolved (d : α)
  | rejectedError (d : α)
  | rejectedTimeout
  deriving DecidableEq

structure PushRun (α : Type) where
  listenerOn : Bool
  timerArmed : Bool
  settles : List (PushOutcome α)
  listenerHits : Nat
  deriving DecidableEq

inductive PushEvent (α : Type)
  | replyFrame (s : ReplyStatus) (d : α)
  | timerFire
  deriving DecidableEq

/-- State right after `send()` returned its promise on an open
connection: reply listener registered, timeout armed, nothing settled. -/
def pushAfterSend (α : Type) : PushRun α := ⟨true, true, [], 0⟩

def pushStep (st : PushRun α) : PushEvent α → PushRun α
  | .replyFrame s d =>
      if st.listenerOn then
        match s with
        | .ok =>
            { listenerOn := false, timerArmed := false,
              settles := st.settles ++ [.resolved d],
              listenerHits := st.listenerHits + 1 }
        | .error =>
            { listenerOn := false, timerArmed := false,
              settles := st.settles ++ [.rejectedError d],
              listenerHits := st.listenerHits + 1 }
      else st
  | .timerFire =>
      if st.timerArmed then
        { st with listenerOn := false, timerArmed := false,
                  settles := st.settles ++ [.rejectedTimeout] }
      else st

def pushRun (α : Type) (evs : List (PushEvent α)) : PushRun α :=
  evs.foldl pushStep (pushAfterSend α)

/-- The outcome produced by the first event reaching a live Push. -/
def pushOutcomeOf : PushEvent α → PushOutcome α
  | .replyFrame .ok d => .resolved d
  | .replyFrame .error d => .rejectedError d
  | .timerFire => .rejectedTimeout

/-! ## Push.send, synchronous portion (socket.js lines 388-423)

The promise executor runs synchronously: it registers the channel reply
listener (line 391), arms the timeout timer (line 395), registers the
subscribers, and only then calls `this.socket.send(...)` (line 416).
When the underlying connection is not open that send throws
synchronously, and the executor exception rejects the promise; nothing
clears the timer armed at line 395. -/

inductive PromiseState
  | pending
  | rejectedTransport
  deriving DecidableEq

structure SendSyncResult where
  listenerOn : Bool
  timerArmed : Bool
  emitted : Bool
  promise : PromiseState
  deriving DecidableEq

def pushSendSync (socketOpen : Bool) : SendSyncResult := Id.run do
  let mut st : SendSyncResult := ⟨false, false, false, .pending⟩
  st := { st with listenerOn := true }
  st := { st with timerArmed := true }
  if socketOpen then
    st := { st with emitted := true }
  else
    st := { st with promise := .rejectedTransport }
  return st

/-! ## Backoff Timer (socket.js lines 350-375) plus the JS timeout host

`setTimeout` returns a fresh handle and appends a pending invocation;
`clearTimeout` removes the invocation with the given handle, if any.
`Timer.start` is `clearTimeout(this._timer); this._timer =
setTimeout(..., this.nextInterval())`; the retry counter is incremented
only inside the scheduled callback, not by `start` itself.
`nextInterval` is `this.intervals[this.retry] || 10000`: an
out-of-range index yields `undefined`, and `undefined || 10000` (or a
falsy `0` interval) evaluates to the hard-coded fallback `10000`. -/

structure Sched where
  queue : List (Nat × Nat)
  nextId : Nat
  deriving DecidableEq

def setTimeout (s : Sched) (d : Nat) : Sched × Nat :=
  (⟨s.queue ++ [(s.nextId, d)], s.nextId + 1⟩, s.nextId)

def clearTimeout (s : Sched) (h : Option Nat) : Sched :=
  { s with queue := s.queue.filter (fun p => some p.1 ≠ h) }

structure Timer where
  intervals : List Nat
  retry : Nat
  handle : Option Nat
  deriving DecidableEq

def Timer.nextInterval (t : Timer) : Nat :=
  match t.intervals.get? t.retry with
  | some v => if v = 0 then 10000 else v
  | none => 10000

def Timer.start : Timer × Sched → Timer × Sched := fun ts =>
  let s1 := clearTimeout ts.2 ts.1.handle
  let p := setTimeout s1 ts.1.nextInterval
  ({ ts.1 with handle := some p.2 }, p.1)

def Timer.reset : Timer × Sched → Timer × Sched := fun ts =>
  ({ ts.1 with retry := 0 }, clearTimeout ts.2 ts.1.handle)

def startN : Nat → Timer × Sched → Timer × Sched
  | 0, ts => ts
  | n + 1, ts => startN n (Timer.start ts)

def freshTimer (intervals : List Nat) : Timer × Sched :=
  (⟨intervals, 0, none⟩, ⟨[], 0⟩)

/-! ## Socket2 (socket.js lines 149-320): connection lifecycle

Event-driven model of one Socket2: application calls (`connect`,
`disconnect`, `nextRef`), transport callbacks (open/error/close), the
reconnect Backoff Timer firing, and the heartbeat interval ticking.
Translated per handler:
  the `connect()` body (185-200) sets `closeWasClean = false` and opens
  a new WebSocket; `onSocketOpen` (241-247) sets `closeWasClean =
  false`, calls `reconnectTimer.reset()` and `resetHeartbeat()`;
  `onSocketError` (253-256) only runs callbacks; `onSocketClose`
  (278-284) calls `clearInterval(heartbeatTimer)` and, when not
  `closeWasClean`, `reconnectTimer.start()`; `disconnect` (202-206)
  sets `closeWasClean = true`, calls `reconnectTimer.reset()`, then
  `teardown` closes the transport; the reconnect timer callback
  (159-161) is `teardown(() => connect())`; `heartbeat()` (220-227)
  sends a frame whose ref is `nextRef()`; `nextRef()` (316-319) is
  `refCounter++; return refCounter`. -/

inductive SockEvent
  | connectCall
  | openEvt
  | errorEvt
  | closeEvt
  | disconnectCall
  | reconnectFire
  | heartbeatTick
  | nextRefCall
  deriving DecidableEq

inductive SockAction
  | connectAttempt
  | socketClosed
  | heartbeatFrame (ref : Nat)
  | refValue (r : Nat)
  deriving DecidableEq

structure SocketM where
  closeWasClean : Bool
  heartbeatOn : Bool
  reconPending : Bool
  reconTries : Nat
  refCounter : Nat
  deriving DecidableEq

def socketInit : SocketM := ⟨false, false, false, 0, 0⟩

def sockStep (s : SocketM) : SockEvent → SocketM × List SockAction
  | .connectCall => ({ s with closeWasClean := false }, [.connectAttempt])
  | .openEvt =>
      ({ s with closeWasClean := false, reconPending := false,
                reconTries := 0, heartbeatOn := true }, [])
  | .errorEvt => (s, [])
  | .closeEvt =>
      if s.closeWasClean then ({ s with heartbeatOn := false }, [])
      else ({ s with heartbeatOn := false, reconPending := true }, [])
  | .disconnectCall =>
      ({ s with closeWasClean := true, reconPending := false, reconTries := 0 },
       [.socketClosed])
  | .reconnectFire =>
      if s.reconPending then
        ({ s with reconPending := false, reconTries := s.reconTries + 1,
                  closeWasClean := false },
         [.socketClosed, .connectAttempt])
      else (s, [])
  | .heartbeatTick =>
      if s.heartbeatOn then
        ({ s with refCounter := s.refCounter + 1 },
         [.refValue (s.refCounter + 1), .heartbeatFrame (s.refCounter + 1)])
      else (s, [])
  | .nextRefCall =>
      ({ s with refCounter := s.refCounter + 1 }, [.refValue (s.refCounter + 1)])

def sockRun : SocketM → List SockEvent → SocketM × List SockAction
  | s, [] => (s, [])
  | s, e :: rest =>
      let p := sockStep s e
      let q := sockRun p.1 rest
      (q.1, p.2 ++ q.2)

/-- Values returned by `nextRef()` (directly or inside a heartbeat),
in the order they were produced. -/
def refsOf (acts : List SockAction) : List Nat :=
  acts.filterMap (fun a => match a with | .refValue r => some r | _ => none)

/-! # Theorems -/

/-! ## Map helper lemmas -/

theorem jsGet_jsDelete (tbl : JsMap α) (k : String) :
    jsGet (jsDelete tbl k) k = none := by
  induction tbl with
  | nil => rfl
  | cons p rest ih =>
      by_cases h : p.1 = k
      · simp [jsDelete, jsGet, List.filter, h]
      · simp [jsDelete, jsGet, List.filter, h, List.find?]

/-! ## Injectivity of the reply-event naming scheme -/

theorem decDigit_digitChar : ∀ d : Nat, d < 10 → decDigit (Nat.digitChar d) = d := by
  decide

theorem foldl_val_append (l : List Char) (c : Char) (a : Nat) :
    List.foldl (fun a c => 10 * a + decDigit c) a (l ++ [c])
      = 10 * List.foldl (fun a c => 10 * a + decDigit c) a l + decDigit c := by
  simp [List.foldl_append]

theorem toDigitsCore_acc :
    ∀ (fuel n : Nat) (ds : List Char),
      Nat.toDigitsCore 10 fuel n ds = Nat.toDigitsCore 10 fuel n [] ++ ds := by
  intro fuel
  induction fuel with
  | zero => intro n ds; simp [Nat.toDigitsCore]
  | succ fuel ih =>
      intro n ds
      by_cases h : n / 10 = 0
      · simp [Nat.toDigitsCore, h]
      · simp only [Nat.toDigitsCore, h, if_false]
        rw [ih (n / 10) (Nat.digitChar (n % 10) :: ds),
            ih (n / 10) [Nat.digitChar (n % 10)]]
        simp

theorem valOfDigits_toDigitsCore :
    ∀ (fuel n : Nat), n < fuel → valOfDigits (Nat.toDigitsCore 10 fuel n []) = n := by
  intro fuel
  induction fuel with
  | zero => intro n h; omega
  | succ fuel ih =>
      intro n h
      by_cases h0 : n / 10 = 0
      · have hn : n < 10 := by omega
        simp [Nat.toDigitsCore, h0, valOfDigits]
        rw [decDigit_digitChar (n % 10) (Nat.mod_lt n (by omega))]
        omega
      · have hrec : n / 10 < fuel := by
          have h1 : n / 10 < n := Nat.div_lt_self (by omega) (by omega)
          omega
        simp only [Nat.toDigitsCore, h0, if_false]
        rw [toDigitsCore_acc fuel (n / 10) [Nat.digitChar (n % 10)]]
        unfold valOfDigits
        rw [foldl_val_append]
        have := ih (n / 10) hrec
        unfold valOfDigits at this
        rw [this, decDigit_digitChar (n % 10) (Nat.mod_lt n (by omega))]
        omega

theorem valOfDigits_toDigits (n : Nat) :
    valOfDigits (Nat.toDigits 10 n) = n :=
  valOfDigits_toDigitsCore (n + 1) n (Nat.lt_succ_self n)

theorem data_makeReplyEventName (ref : Nat) :
    (makeReplyEventName ref).data = "channel_reply_".data ++ Nat.toDigits 10 ref := by
  rfl

theorem makeReplyEventName_leftInverse (ref : Nat) :
    valOfDigits ((makeReplyEventName ref).data.drop 14) = ref := by
  rw [data_makeReplyEventName]
  have hlen : ("channel_reply_".data).length = 14 := by rfl
  rw [← hlen, List.drop_left]
  exact valOfDigits_toDigits ref

theorem makeReplyEventName_injective :
    Function.Injective makeReplyEventName := by
  intro a b h
  have := makeReplyEventName_leftInverse a
  rw [h, makeReplyEventName_leftInverse b] at this
  exact this.symm

/-! ## Push: single settlement -/

theorem pushStep_inert (st : PushRun α) (h1 : st.listenerOn = false)
    (h2 : st.timerArmed = false) (e : PushEvent α) : pushStep st e = st := by
  cases e with
  | replyFrame s d => simp [pushStep, h1]
  | timerFire => simp [pushStep, h2]

theorem foldl_pushStep_inert (evs : List (PushEvent α)) (st : PushRun α)
    (h1 : st.listenerOn = false) (h2 : st.timerArmed = false) :
    evs.foldl pushStep st = st := by
  induction evs with
  | nil => rfl
  | cons e rest ih => rw [List.foldl_cons, pushStep_inert st h1 h2 e]; exact ih

theorem pushStep_first (e : PushEvent α) :
    pushStep (pushAfterSend α) e
      = { listenerOn := false, timerArmed := false,
          settles := [pushOutcomeOf e],
          listenerHits := match e with | .replyFrame _ _ => 1 | .timerFire => 0 } := by
  cases e with
  | replyFrame s d => cases s <;> rfl
  | timerFire => rfl

theorem pushRun_cons (e : PushEvent α) (evs : List (PushEvent α)) :
    pushRun α (e :: evs) = pushStep (pushAfterSend α) e := by
  show (e :: evs).foldl pushStep (pushAfterSend α) = _
  rw [List.foldl_cons]
  refine foldl_pushStep_inert evs _ ?_ ?_ <;> rw [pushStep_first]

/-- C1: after `send()`, exactly one of the three outcomes (resolve with
the ok reply payload, reject with the error reply payload, reject with
the timeout error) fires — the first event to reach the live Push — and
whichever fires first cancels the timer and deregisters the per-ref
reply listener, so every subsequent reply frame with the same ref or
late timer firing leaves the state unchanged: no double resolution and
at most one reply-listener invocation. -/
theorem push_settles_exactly_once (α : Type) (evs : List (PushEvent α)) :
    (pushRun α evs).settles.length ≤ 1
    ∧ (evs ≠ [] → (pushRun α evs).settles.length = 1)
    ∧ (∀ e rest, evs = e :: rest → (pushRun α evs).settles = [pushOutcomeOf e])
    ∧ (pushRun α evs).listenerHits ≤ 1
    ∧ ((pushRun α evs).settles ≠ [] →
        ∀ more, pushRun α (evs ++ more) = pushRun α evs) := by
  cases evs with
  | nil =>
      refine ⟨by simp [pushRun, pushAfterSend], by simp, ?_, ?_, ?_⟩
      · intro e rest h; cases h
      · simp [pushRun, pushAfterSend]
      · intro h; exact absurd rfl h
  | cons e rest =>
      have hc : pushRun α (e :: rest) = pushStep (pushAfterSend α) e := pushRun_cons e rest
      refine ⟨?_, ?_, ?_, ?_, ?_⟩
      · rw [hc, pushStep_first]; simp
      · intro _; rw [hc, pushStep_first]; simp
      · intro e2 rest2 h2
        cases h2
        rw [hc, pushStep_first]
      · rw [hc, pushStep_first]
        cases e with
        | replyFrame s d => simp
        | timerFire => simp
      · intro _ more
        rw [hc]
        calc pushRun α ((e :: rest) ++ more)
            = pushRun α (e :: (rest ++ more)) := by simp
          _ = pushStep (pushAfterSend α) e := pushRun_cons e (rest ++ more)

/-- Witness for C1 at a concrete run: an ok reply resolves with its
payload; a later duplicate reply and a late timer firing are no-ops. -/
theorem push_settles_exactly_once_witness :
    (pushRun Nat [PushEvent.replyFrame ReplyStatus.ok 5]).settles
        = [PushOutcome.resolved 5]
    ∧ pushRun Nat ([PushEvent.replyFrame ReplyStatus.ok 5]
          ++ [PushEvent.replyFrame ReplyStatus.ok 5, PushEvent.timerFire])
        = pushRun Nat [PushEvent.replyFrame ReplyStatus.ok 5] := by
  refine ⟨?_, ?_⟩
  · exact (push_settles_exactly_once Nat
      [PushEvent.replyFrame ReplyStatus.ok 5]).2.2.1 _ _ rfl
  · exact (push_settles_exactly_once Nat
      [PushEvent.replyFrame ReplyStatus.ok 5]).2.2.2.2 (by decide)
      [PushEvent.replyFrame ReplyStatus.ok 5, PushEvent.timerFire]

/-! ## Push.send on a non-open connection (C8) -/

/-- C8 counterexample: with the connection not open, `send()` does
reject synchronously, but the claim that no timeout timer is left
pending is false — the timer armed at line 395 precedes the failing
`socket.send` at line 416 and nothing clears it. -/
theorem push_send_closed_counterexample :
    (pushSendSync false).promise = PromiseState.rejectedTransport
    ∧ (pushSendSync false).timerArmed ≠ false := by
  decide

/-- C8 amended: if the connection is not open when `send()` is called,
the frame is not emitted and the Push rejects immediately (the
synchronous throw inside the promise executor rejects the promise),
but the timeout timer armed before the emission attempt — and the
per-ref reply listener registered before it — are left pending.  On an
open connection the frame is emitted and the promise stays pending. -/
theorem push_send_closed_rejects_timer_left :
    ((pushSendSync false).promise = PromiseState.rejectedTransport
      ∧ (pushSendSync false).emitted = false
      ∧ (pushSendSync false).timerArmed = true
      ∧ (pushSendSync false).listenerOn = true)
    ∧ ((pushSendSync true).promise = PromiseState.pending
      ∧ (pushSendSync true).emitted = true) := by
  decide

/-! ## Channel.off on an absent event (C10) -/

/-- C10: for an event with no entry in the listener table,
`off(event, fn)` with a non-null `fn` throws a `TypeError` (the absent
listener list is dereferenced unguarded), while `off(event)` with no
function succeeds and leaves no listeners for that event. -/
theorem off_absent_event (tbl : SubTable) (event : String) (f : Nat)
    (h : jsGet tbl event = none) :
    Channel.off tbl event (some f) = Except.error JsErr.typeError
    ∧ ∃ tbl2, Channel.off tbl event none = Except.ok tbl2
        ∧ jsGet tbl2 event = none := by
  constructor
  · simp [Channel.off, h]
  · exact ⟨jsDelete tbl event, rfl, jsGet_jsDelete tbl event⟩

/-- Witness for C10 on a concrete table without the event. -/
theorem off_absent_event_witness :
    Channel.off [("x", [1])] "y" (some 7) = Except.error JsErr.typeError
    ∧ ∃ tbl2, Channel.off [("x", [1])] "y" none = Except.ok tbl2
        ∧ jsGet tbl2 "y" = none :=
  off_absent_event [("x", [1])] "y" 7 (by decide)

/-! ## REPLY re-dispatch under the per-ref synthetic event name (C3) -/

/-- C3: an inbound frame whose event is the reserved REPLY event is
re-dispatched by `Channel.dispatch` under the synthetic event name
`makeReplyEventName(ref)`: exactly the listeners registered under that
name are invoked (in order), every invocation carries that event name,
and the names of two distinct refs never collide — so the Push awaiting
this specific ref, and no Push awaiting another ref, receives the
reply. -/
theorem reply_dispatch_correlates (α : Type) (tbl : SubTable) (d : α) (r : Nat) :
    Channel.dispatch tbl ChannelEvents.Reply d r
        = Channel.trigger tbl (makeReplyEventName r) d r
    ∧ (Channel.dispatch tbl ChannelEvents.Reply d r).map ChInvocation.fid
        = (jsGet tbl (makeReplyEventName r)).getD []
    ∧ (∀ inv ∈ Channel.dispatch tbl ChannelEvents.Reply d r,
        inv.event = makeReplyEventName r)
    ∧ (∀ r2 : Nat, r2 ≠ r → makeReplyEventName r2 ≠ makeReplyEventName r) := by
  have hd : Channel.dispatch tbl ChannelEvents.Reply d r
      = Channel.trigger tbl (makeReplyEventName r) d r := by
    simp [Channel.dispatch]
  refine ⟨hd, ?_, ?_, ?_⟩
  · rw [hd]
    simp only [Channel.trigger, List.map_map]
    exact List.map_id _
  · intro inv hinv
    rw [hd] at hinv
    simp only [Channel.trigger, List.mem_map] at hinv
    obtain ⟨fid, _, hfid⟩ := hinv
    rw [← hfid]
  · intro r2 hne hcontra
    exact hne (makeReplyEventName_injective hcontra)

/-- Witness for C3: a channel with Pushes waiting on refs 1 and 2; a
REPLY frame for ref 1 invokes only the listener registered under the
ref-1 name, and the ref-2 name differs. -/
theorem reply_dispatch_correlates_witness :
    (Channel.dispatch
        (Channel.«on» (Channel.«on» [] (makeReplyEventName 1) 10) (makeReplyEventName 2) 20)
        ChannelEvents.Reply (0 : Nat) 1).map ChInvocation.fid = [10]
    ∧ (⟨10, makeReplyEventName 1, (0 : Nat), 1⟩ : ChInvocation Nat).event
        = makeReplyEventName 1
    ∧ makeReplyEventName 2 ≠ makeReplyEventName 1 := by
  have h := reply_dispatch_correlates Nat
    (Channel.«on» (Channel.«on» [] (makeReplyEventName 1) 10) (makeReplyEventName 2) 20) 0 1
  refine ⟨h.2.1.trans (by decide), ?_, h.2.2.2 2 (by decide)⟩
  exact h.2.2.1 ⟨10, makeReplyEventName 1, 0, 1⟩ (by decide)

/-! ## Channel2.trigger: order and exception propagation (C9) -/

theorem forEachCalls_no_raise (p : α) (r : Nat) :
    ∀ l : List Listener2, (∀ f ∈ l, f.raises = false) →
      forEachCalls p r l = (l.map (fun f => ⟨f.fid, p, r⟩), none) := by
  intro l
  induction l with
  | nil => intro _; rfl
  | cons f rest ih =>
      intro h
      have hf : f.raises = false := h f (by simp)
      have hr := ih (fun g hg => h g (by simp [hg]))
      simp [forEachCalls, hf, hr]

theorem forEachCalls_raise (p : α) (r : Nat) (t : Listener2) (post : List Listener2)
    (ht : t.raises = true) :
    ∀ pre : List Listener2, (∀ f ∈ pre, f.raises = false) →
      forEachCalls p r (pre ++ t :: post)
        = ((pre ++ [t]).map (fun f => ⟨f.fid, p, r⟩), some JsExn.listenerExn) := by
  intro pre
  induction pre with
  | nil => intro _; simp [forEachCalls, ht]
  | cons f rest ih =>
      intro h
      have hf : f.raises = false := h f (by simp)
      have hr := ih (fun g hg => h g (by simp [hg]))
      simp [forEachCalls, hf, hr]

/-- C9 counterexample: on a channel whose event has two registered
listeners of which the first throws, `trigger` calls only the first —
the `forEach` iteration is aborted by the exception, so the
later-registered listener never runs, refuting the claim that a
listener exception does not prevent later listeners from running. -/
theorem trigger2_exception_counterexample :
    (Channel2.trigger [("e", [⟨1, true⟩, ⟨2, false⟩])] "e" (0 : Nat) 0).1.map Call2.fid
        = [1]
    ∧ (2 : Nat) ∉
        (Channel2.trigger [("e", [⟨1, true⟩, ⟨2, false⟩])] "e" (0 : Nat) 0).1.map Call2.fid := by
  decide

/-- C9 amended: `trigger(event, payload, ref)` calls the listeners
registered for `event` in registration order with the arguments
`(payload, ref)`; when no listener throws, every registered listener is
called; when one throws, the exception propagates out of the `forEach`
and exactly the listeners up to and including the first throwing one
have been called — later-registered listeners do not run. -/
theorem trigger2_order_and_exception (α : Type) (tbl : JsMap (List Listener2))
    (event : String) (p : α) (r : Nat) :
    ((∀ f ∈ (jsGet tbl event).getD [], f.raises = false) →
      Channel2.trigger tbl event p r
        = (((jsGet tbl event).getD []).map (fun f => ⟨f.fid, p, r⟩), none))
    ∧ (∀ pre t post, (jsGet tbl event).getD [] = pre ++ t :: post →
        (∀ f ∈ pre, f.raises = false) → t.raises = true →
        Channel2.trigger tbl event p r
          = ((pre ++ [t]).map (fun f => ⟨f.fid, p, r⟩), some JsExn.listenerExn)) := by
  constructor
  · intro h
    exact forEachCalls_no_raise p r _ h
  · intro pre t post heq hpre ht
    show forEachCalls p r ((jsGet tbl event).getD []) = _
    rw [heq]
    exact forEachCalls_raise p r t post ht pre hpre

/-- Witness for C9 (amended) on concrete listener tables: all listeners
called in order when none throws; iteration stops at the first throwing
listener otherwise. -/
theorem trigger2_order_and_exception_witness :
    Channel2.trigger [("e", [⟨1, false⟩, ⟨2, false⟩])] "e" (7 : Nat) 3
      = ([⟨1, 7, 3⟩, ⟨2, 7, 3⟩], none)
    ∧ Channel2.trigger [("e", [⟨1, false⟩, ⟨3, true⟩, ⟨4, false⟩])] "e" (7 : Nat) 3
      = ([⟨1, 7, 3⟩, ⟨3, 7, 3⟩], some JsExn.listenerExn) := by
  constructor
  · have h := (trigger2_order_and_exception Nat
      [("e", [⟨1, false⟩, ⟨2, false⟩])] "e" 7 3).1 (by decide)
    exact h.trans (by decide)
  · have h := (trigger2_order_and_exception Nat
      [("e", [⟨1, false⟩, ⟨3, true⟩, ⟨4, false⟩])] "e" 7 3).2
      [⟨1, false⟩] ⟨3, true⟩ [⟨4, false⟩] (by decide) (by decide) rfl
    exact h.trans (by decide)

/-! ## Backoff Timer interval selection after exhaustion (C6) -/

/-- C6 counterexample: with configured intervals `[10, 50, 100]` and
retry count 3 (past the end of the sequence), `start()` schedules the
callback with delay `10000` — the hard-coded fallback of
`this.intervals[this.retry] || 10000` — not with the sequence's final
(longest) interval `100` as the claim states. -/
theorem timer_final_interval_counterexample :
    ((Timer.start (⟨[10, 50, 100], 3, none⟩, ⟨[], 0⟩)).2.queue.map
        (fun p => p.2)) = [10000]
    ∧ [10, 50, 100].getLast? = some 100
    ∧ (10000 : Nat) ≠ 100 := by
  decide

/-- C6 amended: once the retry count reaches the length of the
configured interval sequence, every subsequent `start()` schedules the
callback with the constant fallback delay `10000` ms — which equals the
final element of the default sequence but not of a general configured
sequence — indefinitely; the timer never gives up (each such `start()`
leaves a pending scheduled invocation). -/
theorem timer_holds_at_fallback (t : Timer) (s : Sched)
    (h : t.intervals.length ≤ t.retry) :
    t.nextInterval = 10000
    ∧ (Timer.start (t, s)).2.queue.getLast? = some (s.nextId, 10000)
    ∧ (Timer.start (t, s)).2.queue ≠ [] := by
  have hget : t.intervals.get? t.retry = none := List.get?_eq_none.2 h
  have hni : t.nextInterval = 10000 := by
    unfold Timer.nextInterval
    rw [hget]
  refine ⟨hni, ?_, ?_⟩
  · show ((clearTimeout s t.handle).queue ++ [((clearTimeout s t.handle).nextId, t.nextInterval)]).getLast?
        = some (s.nextId, 10000)
    rw [hni, List.getLast?_concat]
    rfl
  · show ((clearTimeout s t.handle).queue ++ [((clearTimeout s t.handle).nextId, t.nextInterval)]) ≠ []
    simp

/-- Witness for C6 (amended) on a concrete exhausted timer. -/
theorem timer_holds_at_fallback_witness :
    Timer.nextInterval ⟨[10, 50, 100], 5, none⟩ = 10000
    ∧ (Timer.start (⟨[10, 50, 100], 5, none⟩, ⟨[], 0⟩)).2.queue.getLast? = some (0, 10000)
    ∧ (Timer.start (⟨[10, 50, 100], 5, none⟩, ⟨[], 0⟩)).2.queue ≠ [] :=
  timer_holds_at_fallback ⟨[10, 50, 100], 5, none⟩ ⟨[], 0⟩ (by decide)

/-! ## Backoff Timer: repeated start() before firing (C7) -/

/-- C7 counterexample: with intervals `[10, 50, 100]`, two consecutive
`start()` calls on a fresh timer leave one pending invocation with
delay `10` — the retry count is only incremented inside the scheduled
callback, so every `start()` before a firing reuses index 0 — whereas
the claim's formula `min(n-1, len-1)` predicts index 1, delay `50`. -/
theorem timer_start_index_counterexample :
    ((startN 2 (freshTimer [10, 50, 100])).2.queue.map (fun p => p.2)) = [10]
    ∧ [10, 50, 100].get? (min (2 - 1) (3 - 1)) = some 50
    ∧ (10 : Nat) ≠ 50 := by
  decide

theorem startN_chain (intervals : List Nat) :
    ∀ (k i : Nat),
      startN k (⟨intervals, 0, some i⟩,
                ⟨[(i, Timer.nextInterval ⟨intervals, 0, none⟩)], i + 1⟩)
        = (⟨intervals, 0, some (i + k)⟩,
           ⟨[(i + k, Timer.nextInterval ⟨intervals, 0, none⟩)], i + k + 1⟩) := by
  intro k
  induction k with
  | zero => intro i; simp [startN]
  | succ k ih =>
      intro i
      have hstart : Timer.start (⟨intervals, 0, some i⟩,
            ⟨[(i, Timer.nextInterval ⟨intervals, 0, none⟩)], i + 1⟩)
          = (⟨intervals, 0, some (i + 1)⟩,
             ⟨[(i + 1, Timer.nextInterval ⟨intervals, 0, none⟩)], i + 2⟩) := by
        simp [Timer.start, clearTimeout, setTimeout, Timer.nextInterval]
      rw [startN, hstart, ih (i + 1)]
      have hadd : i + 1 + k = i + (k + 1) := by omega
      rw [hadd]

/-- C7 amended: `start()` called `n ≥ 1` times in a row before firing
yields exactly one pending scheduled invocation — each `start()` cancels
the previously pending schedule, so schedules replace and never stack —
but its delay is the interval at the *current retry count* (index 0 for
a fresh timer, whatever `n` is), because the retry count is incremented
only when the timer fires, not by `start()`; concretely, with intervals
`[10, 50, 100]`, three consecutive `start()` calls before firing leave
one pending invocation with delay `10`. -/
theorem timer_start_preempts (intervals : List Nat) (n : Nat) (h : 1 ≤ n) :
    (startN n (freshTimer intervals)).2.queue
      = [(n - 1, Timer.nextInterval ⟨intervals, 0, none⟩)]
    ∧ (startN n (freshTimer intervals)).2.queue.length = 1
    ∧ (startN n (freshTimer intervals)).1.retry = 0 := by
  obtain ⟨k, rfl⟩ : ∃ k, n = k + 1 := ⟨n - 1, by omega⟩
  have h1 : startN (k + 1) (freshTimer intervals)
      = startN k (Timer.start (freshTimer intervals)) := rfl
  have h2 : Timer.start (freshTimer intervals)
      = (⟨intervals, 0, some 0⟩,
         ⟨[(0, Timer.nextInterval ⟨intervals, 0, none⟩)], 1⟩) := by
    simp [Timer.start, freshTimer, clearTimeout, setTimeout, Timer.nextInterval]
  rw [h1, h2]
  have h3 := startN_chain intervals k 0
  rw [show (0 : Nat) + 1 = 1 by rfl] at h3
  rw [h3]
  simp

/-- Witness for C7 (amended): the concrete scenario from the claim —
three `start()` calls on a fresh timer with intervals `[10, 50, 100]`
leave exactly one pending invocation, with delay `10`. -/
theorem timer_start_preempts_witness :
    (startN 3 (freshTimer [10, 50, 100])).2.queue
      = [(2, Timer.nextInterval ⟨[10, 50, 100], 0, none⟩)]
    ∧ Timer.nextInterval ⟨[10, 50, 100], 0, none⟩ = 10
    ∧ (startN 3 (freshTimer [10, 50, 100])).2.queue.length = 1 := by
  have h := timer_start_preempts [10, 50, 100] 3 (by decide)
  exact ⟨h.1, by decide, h.2.1⟩

/-! ## Connection: ref allocation (C2) -/

theorem refsOf_append (a b : List SockAction) :
    refsOf (a ++ b) = refsOf a ++ refsOf b := by
  simp [refsOf, List.filterMap_append]

theorem sockStep_refs_shape (s : SocketM) (e : SockEvent) :
    (refsOf (sockStep s e).2 = [] ∧ (sockStep s e).1.refCounter = s.refCounter)
    ∨ (refsOf (sockStep s e).2 = [s.refCounter + 1]
        ∧ (sockStep s e).1.refCounter = s.refCounter + 1) := by
  cases e with
  | connectCall => left; exact ⟨rfl, rfl⟩
  | openEvt => left; exact ⟨rfl, rfl⟩
  | errorEvt => left; exact ⟨rfl, rfl⟩
  | closeEvt =>
      cases h : s.closeWasClean <;> (left; simp [sockStep, h, refsOf])
  | disconnectCall => left; exact ⟨rfl, rfl⟩
  | reconnectFire =>
      cases h : s.reconPending <;> (left; simp [sockStep, h, refsOf])
  | heartbeatTick =>
      cases h : s.heartbeatOn
      · left; simp [sockStep, h, refsOf]
      · right; simp [sockStep, h, refsOf]
  | nextRefCall => right; exact ⟨rfl, rfl⟩

theorem sockRun_refs (evs : List SockEvent) :
    ∀ s : SocketM,
      List.Chain' (· < ·) (refsOf (sockRun s evs).2)
      ∧ (∀ r ∈ refsOf (sockRun s evs).2,
            s.refCounter < r ∧ r ≤ (sockRun s evs).1.refCounter)
      ∧ s.refCounter ≤ (sockRun s evs).1.refCounter := by
  induction evs with
  | nil =>
      intro s
      refine ⟨?_, ?_, ?_⟩ <;> simp [sockRun, refsOf]
  | cons e rest ih =>
      intro s
      obtain ⟨ihc, ihb, ihm⟩ := ih (sockStep s e).1
      have hfst : (sockRun s (e :: rest)).1 = (sockRun (sockStep s e).1 rest).1 := rfl
      have hsnd : refsOf (sockRun s (e :: rest)).2
          = refsOf (sockStep s e).2 ++ refsOf (sockRun (sockStep s e).1 rest).2 := by
        show refsOf ((sockStep s e).2 ++ (sockRun (sockStep s e).1 rest).2) = _
        exact refsOf_append _ _
      rcases sockStep_refs_shape s e with ⟨ha, hc⟩ | ⟨ha, hc⟩
      · refine ⟨?_, ?_, ?_⟩
        · rw [hsnd, ha, List.nil_append]
          exact ihc
        · intro r hr
          rw [hsnd, ha, List.nil_append] at hr
          obtain ⟨hlt, hle⟩ := ihb r hr
          rw [hfst]
          exact ⟨by omega, hle⟩
        · rw [hfst]; omega
      · refine ⟨?_, ?_, ?_⟩
        · rw [hsnd, ha, List.singleton_append]
          refine List.chain'_cons'.2 ⟨?_, ihc⟩
          intro y hy
          have hlt := (ihb y (List.mem_of_mem_head? hy)).1
          omega
        · intro r hr
          rw [hsnd, ha, List.singleton_append] at hr
          rw [hfst]
          rcases List.mem_cons.1 hr with h1 | h1
          · subst h1
            exact ⟨by omega, by omega⟩
          · obtain ⟨hlt, hle⟩ := ihb r h1
            exact ⟨by omega, hle⟩
        · rw [hfst]; omega

/-- C2: over any sequence of operations on one Connection — including
reconnect cycles, heartbeats and direct `nextRef()` calls — the values
returned by `nextRef()` are strictly increasing in the order they were
produced, hence pairwise distinct: no ref is ever reused, and the
counter is never reset. -/
theorem nextRef_strictly_increasing (s : SocketM) (evs : List SockEvent) :
    List.Chain' (· < ·) (refsOf (sockRun s evs).2)
    ∧ List.Pairwise (· < ·) (refsOf (sockRun s evs).2)
    ∧ List.Pairwise (· ≠ ·) (refsOf (sockRun s evs).2) := by
  obtain ⟨hc, -, -⟩ := sockRun_refs evs s
  have hp : List.Pairwise (· < ·) (refsOf (sockRun s evs).2) :=
    List.chain'_iff_pairwise.1 hc
  exact ⟨hc, hp, hp.imp Nat.ne_of_lt⟩

/-! ## Connection: close handling (C4) -/

/-- C4: on a transport close event, heartbeat emission stops; if
`closeWasClean` is false the Backoff Timer is started, and its firing
closes the old transport and invokes `connect()` again (a connect
attempt is emitted) with no application intervention; if
`closeWasClean` is true, no reconnection is scheduled (the timer state
is untouched and nothing is emitted). -/
theorem close_handling (s : SocketM) :
    (sockStep s SockEvent.closeEvt).1.heartbeatOn = false
    ∧ (s.closeWasClean = false →
        (sockStep s SockEvent.closeEvt).1.reconPending = true
        ∧ (sockStep (sockStep s SockEvent.closeEvt).1 SockEvent.reconnectFire).2
            = [SockAction.socketClosed, SockAction.connectAttempt])
    ∧ (s.closeWasClean = true →
        (sockStep s SockEvent.closeEvt).1.reconPending = s.reconPending
        ∧ (sockStep s SockEvent.closeEvt).2 = []) := by
  cases h : s.closeWasClean <;> simp [sockStep, h]

/-- Witness for C4: an abnormal close on an open, heartbeating
connection stops the heartbeat, arms the reconnect timer, and the
timer's firing issues a connect attempt. -/
theorem close_handling_witness :
    (sockStep ⟨false, true, false, 0, 0⟩ SockEvent.closeEvt).1.heartbeatOn = false
    ∧ ((sockStep ⟨false, true, false, 0, 0⟩ SockEvent.closeEvt).1.reconPending = true
        ∧ (sockStep (sockStep ⟨false, true, false, 0, 0⟩ SockEvent.closeEvt).1
              SockEvent.reconnectFire).2
            = [SockAction.socketClosed, SockAction.connectAttempt]) := by
  have h := close_handling ⟨false, true, false, 0, 0⟩
  exact ⟨h.1, h.2.1 rfl⟩

/-! ## Connection: disconnect suppresses reconnection (C5) -/

theorem sockStep_clean_preserved (s : SocketM) (e : SockEvent)
    (h1 : s.closeWasClean = true) (h2 : s.reconPending = false)
    (he : e = SockEvent.closeEvt ∨ e = SockEvent.errorEvt
        ∨ e = SockEvent.reconnectFire ∨ e = SockEvent.heartbeatTick) :
    (sockStep s e).1.closeWasClean = true
    ∧ (sockStep s e).1.reconPending = false
    ∧ SockAction.connectAttempt ∉ (sockStep s e).2 := by
  rcases he with rfl | rfl | rfl | rfl
  · simp [sockStep, h1, h2]
  · simp [sockStep, h1, h2]
  · simp [sockStep, h1, h2]
  · cases h3 : s.heartbeatOn <;> simp [sockStep, h1, h2, h3]

theorem no_reconnect_of_clean (evs : List SockEvent) :
    ∀ s : SocketM, s.closeWasClean = true → s.reconPending = false →
      (∀ e ∈ evs, e = SockEvent.closeEvt ∨ e = SockEvent.errorEvt
        ∨ e = SockEvent.reconnectFire ∨ e = SockEvent.heartbeatTick) →
      SockAction.connectAttempt ∉ (sockRun s evs).2 := by
  induction evs with
  | nil =>
      intro s _ _ _
      simp [sockRun]
  | cons e rest ih =>
      intro s h1 h2 hall
      obtain ⟨p1, p2, p3⟩ :=
        sockStep_clean_preserved s e h1 h2 (hall e (by simp))
      have hrest := ih (sockStep s e).1 p1 p2 (fun e2 he2 => hall e2 (by simp [he2]))
      have hsnd : (sockRun s (e :: rest)).2
          = (sockStep s e).2 ++ (sockRun (sockStep s e).1 rest).2 := rfl
      rw [hsnd]
      simp only [List.mem_append, not_or]
      exact ⟨p3, hrest⟩

/-- C5: `disconnect` sets `closeWasClean`, resets the Backoff Timer
(cancelling any pending reconnect and zeroing its retry count), and
closes the transport; afterwards, under any sequence of
spontaneously occurring events (transport close/error, timer firings,
heartbeat ticks — anything not requiring an application call), no
connect attempt is ever emitted; and no event other than `disconnect`
ever turns `closeWasClean` on, so `disconnect` is the only path that
prevents the close handler from scheduling a reconnect. -/
theorem disconnect_is_terminal (s : SocketM) (evs : List SockEvent) :
    (sockStep s SockEvent.disconnectCall).1.closeWasClean = true
    ∧ (sockStep s SockEvent.disconnectCall).1.reconPending = false
    ∧ (sockStep s SockEvent.disconnectCall).1.reconTries = 0
    ∧ (sockStep s SockEvent.disconnectCall).2 = [SockAction.socketClosed]
    ∧ ((∀ e ∈ evs, e = SockEvent.closeEvt ∨ e = SockEvent.errorEvt
          ∨ e = SockEvent.reconnectFire ∨ e = SockEvent.heartbeatTick) →
        SockAction.connectAttempt
          ∉ (sockRun (sockStep s SockEvent.disconnectCall).1 evs).2)
    ∧ (∀ (s2 : SocketM) (e : SockEvent), e ≠ SockEvent.disconnectCall →
        s2.closeWasClean = false → (sockStep s2 e).1.closeWasClean = false) := by
  refine ⟨rfl, rfl, rfl, rfl, ?_, ?_⟩
  · intro hall
    exact no_reconnect_of_clean evs _ rfl rfl hall
  · intro s2 e hne h
    cases e with
    | connectCall => rfl
    | openEvt => rfl
    | errorEvt => exact h
    | closeEvt =>
        cases hc : s2.closeWasClean
        · simp [sockStep, hc, h]
        · rw [h] at hc; cases hc
    | disconnectCall => exact absurd rfl hne
    | reconnectFire => cases hp : s2.reconPending <;> simp [sockStep, hp, h]
    | heartbeatTick => cases hh : s2.heartbeatOn <;> simp [sockStep, hh, h]
    | nextRefCall => exact h

/-- Witness for C5: a disconnect on a connected socket with a pending
reconnect; afterwards a close event, a stray timer firing and a
heartbeat tick produce no connect attempt, and a connect call on a
not-cleanly-closed socket leaves `closeWasClean` false. -/
theorem disconnect_is_terminal_witness :
    (sockStep ⟨false, true, true, 2, 5⟩ SockEvent.disconnectCall).1.closeWasClean = true
    ∧ (sockStep ⟨false, true, true, 2, 5⟩ SockEvent.disconnectCall).1.reconPending = false
    ∧ SockAction.connectAttempt
        ∉ (sockRun (sockStep ⟨false, true, true, 2, 5⟩ SockEvent.disconnectCall).1
            [SockEvent.closeEvt, SockEvent.reconnectFire, SockEvent.heartbeatTick]).2
    ∧ (sockStep socketInit SockEvent.connectCall).1.closeWasClean = false := by
  have h := disconnect_is_terminal ⟨false, true, true, 2, 5⟩
    [SockEvent.closeEvt, SockEvent.reconnectFire, SockEvent.heartbeatTick]
  exact ⟨h.1, h.2.1, h.2.2.2.2.1 (by decide),
    h.2.2.2.2.2 socketInit SockEvent.connectCall (by decide) rfl⟩

end AsgiCable
